import Mathlib

/-!
Shallow embedding of `src/req_res.rs` from the pure-rust-multithreaded-web-server
repository: the request parser (`Request::parse`), the page resolver
(`Response::get_page`) and the response formatter (`response`).

Modelling conventions:
* Request buffers are modelled after the lossy UTF-8 decode
  (`String::from_utf8_lossy`), which never fails: a buffer is a `String`
  (equivalently its `List Char` of decoded text).  The empty buffer decodes
  to the empty string.
* Rust panics (`expect`, `unwrap`, out-of-bounds indexing) are modelled by
  explicit `abort` results carrying the kind of panic.
* The filesystem (`fs::read_to_string`) is an explicit parameter
  `fs : String → Option String` mapping a path to its contents when the read
  succeeds.
* Rust `f64` parsing (`str::parse::<f64>`) is modelled by a recogniser of the
  exact `f64::from_str` grammar; finite values are represented as exact
  rationals (binary rounding is abstracted away: no claim compares values
  obtained from distinct literals, only success/failure of the parse and the
  value of the literal `1.1`).
-/

/-- Decimal digit test, as in the Rust float grammar (`Digit ::= '0'..'9'`). -/
def isAsciiDigit (c : Char) : Bool :=
  '0' ≤ c && c ≤ '9'

/-- Split a character list at every occurrence of the separator `sep`,
keeping empty pieces, as Rust `str::split(sep)` does: the result always has
one more piece than there are separators, so it is never empty. -/
def splitOnChar (sep : Char) : List Char → List (List Char)
  | [] => [[]]
  | c :: rest =>
    if c = sep then [] :: splitOnChar sep rest
    else
      match splitOnChar sep rest with
      | [] => [[c]]
      | p :: ps => (c :: p) :: ps

/-- Remove one trailing carriage return, used by the `lines` model. -/
def rstripCr (l : List Char) : List Char :=
  if l.getLast? = some '\r' then l.dropLast else l

/-- Rust `str::lines`: split at `'\n'`; every piece that was terminated by a
`'\n'` loses one trailing `'\r'`; a final empty piece (text ending in a line
break) is dropped; a final piece not terminated by `'\n'` keeps any `'\r'`. -/
def rustLines (s : List Char) : List (List Char) :=
  let ps := splitOnChar '\n' s
  let front := ps.dropLast.map rstripCr
  match ps.getLast? with
  | some [] => front
  | some l => front ++ [l]
  | none => front

/-- The Unicode `White_Space` property, the trim set of Rust `str::trim`. -/
def isRustWhitespace (c : Char) : Bool :=
  c.toNat = 0x09 || c.toNat = 0x0A || c.toNat = 0x0B || c.toNat = 0x0C ||
  c.toNat = 0x0D || c.toNat = 0x20 || c.toNat = 0x85 || c.toNat = 0xA0 ||
  c.toNat = 0x1680 ||
  (0x2000 ≤ c.toNat && c.toNat ≤ 0x200A) ||
  c.toNat = 0x2028 || c.toNat = 0x2029 || c.toNat = 0x202F ||
  c.toNat = 0x205F || c.toNat = 0x3000

/-- Rust `str::trim`: strip leading and trailing whitespace. -/
def rustTrim (l : List Char) : List Char :=
  ((l.dropWhile isRustWhitespace).reverse.dropWhile isRustWhitespace).reverse

/-- Rust `.replace("\u{0}", "")`: drop every NUL character. -/
def removeNul (l : List Char) : List Char :=
  l.filter (fun c => c ≠ '\x00')

/-- Rust `.replace("HTTP/", "")`: delete every (non-overlapping, left-to-right)
occurrence of the five-character pattern `HTTP/`. -/
def stripHTTPAll : List Char → List Char
  | 'H' :: 'T' :: 'T' :: 'P' :: '/' :: rest => stripHTTPAll rest
  | c :: rest => c :: stripHTTPAll rest
  | [] => []

/-- Rust `str::contains(pat)`: `pat` occurs as a contiguous substring. -/
def containsStr (pat : List Char) : List Char → Bool
  | [] => pat.isEmpty
  | c :: rest => pat.isPrefixOf (c :: rest) || containsStr pat rest

/-- `IndexMap::insert`: overwrite in place when the key exists, else append. -/
def insertIdx : List (String × String) → String → String → List (String × String)
  | [], k, v => [(k, v)]
  | (k', v') :: rest, k, v =>
    if k' = k then (k, v) :: rest else (k', v') :: insertIdx rest k v

/-- The value of a Rust `f64` obtained from a successful `str::parse::<f64>`,
with finite values kept as exact rationals (see the module comment). -/
inductive F64 where
  | finite : ℚ → F64
  | infinite : Bool → F64
  | nan : F64
deriving DecidableEq, Repr

/-- Numeric value of a digit string (`Count` in the `f64::from_str` grammar). -/
def digitsVal (l : List Char) : ℕ :=
  l.foldl (fun a c => 10 * a + (c.toNat - 48)) 0

/-- Parse the optional exponent suffix `('e'|'E') Sign? Count` of the
`f64::from_str` grammar; the empty remainder means exponent `0`; anything
else is a parse error (`none`). -/
def parseExpPart : List Char → Option ℤ
  | [] => some 0
  | c :: rest =>
    if c = 'e' ∨ c = 'E' then
      let p : ℤ × List Char :=
        match rest with
        | '+' :: ds => (1, ds)
        | '-' :: ds => (-1, ds)
        | ds => (1, ds)
      if p.2 ≠ [] ∧ p.2.all isAsciiDigit then some (p.1 * (digitsVal p.2 : ℤ))
      else none
    else none

/-- Parse the mantissa `Count '.'? | '.' Count | Count '.' Count` of the
`f64::from_str` grammar, returning the digit value, the number of fractional
digits, and the unconsumed rest (which must be an exponent suffix). -/
def parseMantissa (l : List Char) : Option (ℕ × ℕ × List Char) :=
  let ip := l.takeWhile isAsciiDigit
  let r1 := l.dropWhile isAsciiDigit
  match r1 with
  | '.' :: r2 =>
    let fp := r2.takeWhile isAsciiDigit
    let r3 := r2.dropWhile isAsciiDigit
    if ip = [] ∧ fp = [] then none
    else some (digitsVal (ip ++ fp), fp.length, r3)
  | _ => if ip = [] then none else some (digitsVal ip, 0, r1)

/-- Rust `str::parse::<f64>` (`f64::from_str`): an optional sign, then either
a case-insensitive `inf`/`infinity`/`nan` or a mantissa with optional
exponent; the whole string must be consumed.  Returns `none` exactly when
Rust returns `Err(ParseFloatError)`.  The finite value
`sign * digits * 10 ^ (exp - fracLen)` is assembled with `mkRat`. -/
def parseF64 (l : List Char) : Option F64 :=
  let p : Bool × List Char :=
    match l with
    | '+' :: r => (false, r)
    | '-' :: r => (true, r)
    | r => (false, r)
  let low := p.2.map Char.toLower
  if low = "inf".data ∨ low = "infinity".data then some (F64.infinite p.1)
  else if low = "nan".data then some F64.nan
  else
    match parseMantissa p.2 with
    | none => none
    | some (d, fl, rest) =>
      match parseExpPart rest with
      | none => none
      | some e =>
        let sn : ℤ := if p.1 then -(Int.ofNat d) else Int.ofNat d
        some (F64.finite (if 0 ≤ e
          then mkRat (sn * Int.ofNat (Nat.pow 10 e.toNat)) (Nat.pow 10 fl)
          else mkRat sn (Nat.pow 10 fl * Nat.pow 10 (-e).toNat)))

/-- The kind of Rust panic a model function can signal. -/
inductive AbortKind where
  /-- Out-of-bounds `Vec` indexing (`lines[0]` on an empty buffer, or
  `lines[idx + 1]` past the end of the line list). -/
  | indexOutOfBounds : AbortKind
  /-- The `.expect("Couldn't parse http version!")` on a failed `f64` parse. -/
  | versionParse : AbortKind
  /-- The `.unwrap()` on a failed read of `frontend/404.html`. -/
  | unwrapNone : AbortKind
deriving DecidableEq, Repr

/-- `ParsedRequest` from `src/req_res.rs`: the metadata extracted from a
request buffer. -/
structure ParsedRequest where
  method : String
  uri : String
  http_version : F64
  headers : List (String × String)
  body : String
deriving DecidableEq, Repr

/-- Outcome of `Request::parse`: `Some(ParsedRequest)`, `None` (the buffer is
malformed), or a panic. -/
inductive ParseResult where
  | success : ParsedRequest → ParseResult
  | malformed : ParseResult
  | abort : AbortKind → ParseResult
deriving DecidableEq, Repr

/-- The header/body loop of `Request::parse` (`for (idx, &i) in
lines.iter().enumerate()`), over the lines after the request line.  On every
empty line it reassigns `body` to `lines[idx + 1]` trimmed with NULs removed
(panicking when that index is past the end, i.e. when the empty line is
last); then it splits the current line at every `':'`, trims each piece, and
when at least two pieces result inserts the first two as a header pair. -/
def parseLoop (headers : List (String × String)) (body : String) :
    List (List Char) → AbortKind ⊕ (List (String × String) × String)
  | [] => Sum.inr (headers, body)
  | i :: rest =>
    let bodyStep : Option String :=
      if i = [] then
        match rest with
        | [] => none
        | nxt :: _ => some (String.mk (removeNul (rustTrim nxt)))
      else some body
    match bodyStep with
    | none => Sum.inl AbortKind.indexOutOfBounds
    | some body' =>
      let pair := (splitOnChar ':' i).map rustTrim
      let headers' :=
        match pair with
        | p0 :: p1 :: _ => insertIdx headers (String.mk p0) (String.mk p1)
        | _ => headers
      parseLoop headers' body' rest

/-- The body of `Request::parse` after line splitting: reads `lines[0]`
(panicking when there are no lines), splits it at every space, takes the
first three pieces as method, uri and version token (returning `malformed`
when fewer than three exist), deletes every `HTTP/` from the version token
and parses it as an `f64` (panicking on failure), then runs the header/body
loop on the remaining lines. -/
def Request.parseLines : List (List Char) → ParseResult
  | [] => ParseResult.abort AbortKind.indexOutOfBounds
  | line0 :: rest =>
    match splitOnChar ' ' line0 with
    | m :: u :: v :: _ =>
      match parseF64 (stripHTTPAll v) with
      | none => ParseResult.abort AbortKind.versionParse
      | some ver =>
        match parseLoop [] "" rest with
        | Sum.inl k => ParseResult.abort k
        | Sum.inr (hs, b) =>
          ParseResult.success
            { method := String.mk m, uri := String.mk u, http_version := ver,
              headers := hs, body := b }
    | _ => ParseResult.malformed

/-- `Request::parse` from `src/req_res.rs`, on the lossily decoded buffer
text: split the text into lines (`str::lines`) and run the request-line and
header/body processing on them. -/
def Request.parse (buffer : String) : ParseResult :=
  Request.parseLines (rustLines buffer.data)

/-- The `response` helper from `src/req_res.rs`:
`format!("HTTP/1.1 {} {}\r\n{}\r\n\r\n{}", status, desc, headers, body)`. -/
def response (status : ℤ) (desc headers body : String) : String :=
  s!"HTTP/1.1 {status} {desc}\r\n{headers}\r\n\r\n{body}"

/-- The page-path computation inside `Response::get_page`: `/` maps to
`frontend/index.html`; any other uri maps to `frontend{uri}{suffix}` where
the suffix is empty when the uri contains `.html` and `.html` otherwise. -/
def page_path (uri : String) : String :=
  if uri = "/" then "frontend/index.html"
  else "frontend" ++ uri ++ (if containsStr ".html".data uri.data then "" else ".html")

/-- Result of `Response::get_page`: the response string, or a panic. -/
inductive GetPageResult where
  | ok : String → GetPageResult
  | abort : AbortKind → GetPageResult
deriving DecidableEq, Repr

/-- `Response::get_page` from `src/req_res.rs`, with the filesystem as an
explicit parameter `fs` (path → contents when readable).  A malformed parse
yields the literal 400 response; a parse panic propagates; otherwise the
resolved page is read, falling back to `frontend/404.html` on failure
(panicking when that read also fails), and the result is formatted as
`200 OK` with a `Content-Length` header of the content's UTF-8 byte
length. -/
def Response.get_page (fs : String → Option String) (buffer : String) :
    GetPageResult :=
  match Request.parse buffer with
  | ParseResult.malformed => GetPageResult.ok (response 400 "Bad ass Request" "" "")
  | ParseResult.abort k => GetPageResult.abort k
  | ParseResult.success req =>
    match fs (page_path req.uri) with
    | some content =>
      GetPageResult.ok
        (response 200 "OK" ("Content-Length: " ++ toString content.utf8ByteSize) content)
    | none =>
      match fs "frontend/404.html" with
      | some content =>
        GetPageResult.ok
          (response 200 "OK" ("Content-Length: " ++ toString content.utf8ByteSize) content)
      | none => GetPageResult.abort AbortKind.unwrapNone

/-- Spec-side reading of C4's premise, "stripping the literal prefix
`HTTP/`": remove one leading `HTTP/` when present, leave the token unchanged
otherwise.  (The source instead deletes every occurrence with
`.replace("HTTP/", "")`, i.e. `stripHTTPAll`; the two differ.) -/
def stripLeadingHTTP (l : List Char) : List Char :=
  if "HTTP/".data.isPrefixOf l then l.drop 5 else l

/-- The sample request literal from the spec (§8) and the crate's tests
(`SAMPLE_REQ_STR`), with its lines joined by `\n` as in the Rust source. -/
def SAMPLE_REQ_STR : String :=
  "GET / HTTP/1.1\nHost: 127.0.0.1:3000\nUser-Agent: Mozilla/5.0 (Windows NT 10.0; Win64; x64; rv:97.0) Gecko/20100101 Firefox/97.0\nAccept: text/html,application/xhtml+xml,application/xml;q=0.9,image/avif,image/webp,*/*;q=0.8\nAccept-Language: en-US,en;q=0.5\nAccept-Encoding: gzip, deflate\nConnection: keep-alive\nUpgrade-Insecure-Requests: 1\nSec-Fetch-Dest: document\nSec-Fetch-Mode: navigate\nSec-Fetch-Site: none\nSec-Fetch-User: ?1\nCache-Control: max-age=0"

/-- The result of `Request::parse` on `SAMPLE_REQ_STR`: every header value is
truncated at the second colon of its line, because the parser splits each
line at every `':'` and keeps only the first two trimmed pieces. -/
def SAMPLE_PARSED : ParsedRequest :=
  { method := "GET", uri := "/", http_version := F64.finite (mkRat 11 10),
    headers := [("Host", "127.0.0.1"),
                ("User-Agent", "Mozilla/5.0 (Windows NT 10.0; Win64; x64; rv"),
                ("Accept", "text/html,application/xhtml+xml,application/xml;q=0.9,image/avif,image/webp,*/*;q=0.8"),
                ("Accept-Language", "en-US,en;q=0.5"),
                ("Accept-Encoding", "gzip, deflate"),
                ("Connection", "keep-alive"),
                ("Upgrade-Insecure-Requests", "1"),
                ("Sec-Fetch-Dest", "document"),
                ("Sec-Fetch-Mode", "navigate"),
                ("Sec-Fetch-Site", "none"),
                ("Sec-Fetch-User", "?1"),
                ("Cache-Control", "max-age=0")],
    body := "" }

/-! ## Shared lemmas about the embedded definitions -/

/-- Splitting a list that does not contain the separator yields one piece. -/
theorem splitOnChar_eq_single (c : Char) (l : List Char) (h : c ∉ l) :
    splitOnChar c l = [l] := by
  induction l with
  | nil => rfl
  | cons x xs ih =>
    simp only [List.mem_cons, not_or] at h
    have hx : ¬ x = c := fun hxc => h.1 hxc.symm
    simp [splitOnChar, hx, ih h.2]

/-- Splitting at the first separator occurrence peels off the first piece. -/
theorem splitOnChar_append_cons (c : Char) (a b : List Char) (h : c ∉ a) :
    splitOnChar c (a ++ c :: b) = a :: splitOnChar c b := by
  induction a with
  | nil => simp [splitOnChar]
  | cons x xs ih =>
    simp only [List.mem_cons, not_or] at h
    have hx : ¬ x = c := fun hxc => h.1 hxc.symm
    simp [splitOnChar, hx, ih h.2]

/-- The only panic the header/body loop can raise is the out-of-bounds
lookup of the line after a final empty line. -/
theorem parseLoop_inl_eq (l : List (List Char)) :
    ∀ hs b k, parseLoop hs b l = Sum.inl k → k = AbortKind.indexOutOfBounds := by
  induction l with
  | nil => intro hs b k h; simp [parseLoop] at h
  | cons i rest ih =>
    intro hs b k h
    by_cases hi : i = []
    · subst hi
      cases rest with
      | nil =>
        simp [parseLoop] at h
        exact h.symm
      | cons q qs =>
        simp only [parseLoop] at h
        exact ih _ _ _ h
    · simp only [parseLoop, if_neg hi] at h
      exact ih _ _ _ h

/-- When no line is empty the loop never touches the body accumulator. -/
theorem parseLoop_no_blank (l : List (List Char)) (hl : [] ∉ l) :
    ∀ hs b, ∃ hs', parseLoop hs b l = Sum.inr (hs', b) := by
  induction l with
  | nil => exact fun hs b => ⟨hs, rfl⟩
  | cons i rest ih =>
    intro hs b
    have hi : ¬ i = [] := fun h => hl (by simp [h])
    have hrest : [] ∉ rest := fun h => hl (List.mem_cons_of_mem _ h)
    obtain ⟨hs', h'⟩ := ih hrest
      (match (splitOnChar ':' i).map rustTrim with
        | p0 :: p1 :: _ => insertIdx hs (String.mk p0) (String.mk p1)
        | _ => hs) b
    exact ⟨hs', by simp only [parseLoop, if_neg hi]; exact h'⟩

/-- A final empty line makes the loop panic with an out-of-bounds lookup. -/
theorem parseLoop_trailing_blank (pre : List (List Char)) :
    ∀ hs b, parseLoop hs b (pre ++ [[]]) = Sum.inl AbortKind.indexOutOfBounds := by
  induction pre with
  | nil => intro hs b; rfl
  | cons i pretail ih =>
    intro hs b
    obtain ⟨q, qs, hq⟩ : ∃ q qs, pretail ++ [[]] = q :: qs := by
      cases pretail with
      | nil => exact ⟨[], [], rfl⟩
      | cons p ps => exact ⟨p, ps ++ [[]], List.cons_append p ps [[]]⟩
    by_cases hi : i = []
    · subst hi
      rw [List.cons_append, hq]
      rw [hq] at ih
      simp only [parseLoop]
      exact ih _ _
    · rw [List.cons_append]
      simp only [parseLoop, if_neg hi]
      exact ih _ _

/-- After the last empty line (which has a successor), the loop's final body
is that successor line, trimmed and with NULs removed. -/
theorem parseLoop_blank_last (nxt : List Char) (post : List (List Char))
    (hpost : [] ∉ nxt :: post) :
    ∀ (pre : List (List Char)) (hs : List (String × String)) (b : String),
      ∃ hs', parseLoop hs b (pre ++ [] :: nxt :: post) =
        Sum.inr (hs', String.mk (removeNul (rustTrim nxt))) := by
  intro pre
  induction pre with
  | nil =>
    intro hs b
    obtain ⟨hs', h'⟩ := parseLoop_no_blank (nxt :: post) hpost hs
      (String.mk (removeNul (rustTrim nxt)))
    exact ⟨hs', by simp only [List.nil_append, parseLoop]; exact h'⟩
  | cons i pretail ih =>
    intro hs b
    obtain ⟨q, qs, hq⟩ : ∃ q qs, pretail ++ [] :: nxt :: post = q :: qs := by
      cases pretail with
      | nil => exact ⟨[], nxt :: post, rfl⟩
      | cons p ps => exact ⟨p, ps ++ [] :: nxt :: post, rfl⟩
    by_cases hi : i = []
    · subst hi
      rw [List.cons_append, hq]
      obtain ⟨hs', h'⟩ := ih
        (match (splitOnChar ':' []).map rustTrim with
          | p0 :: p1 :: _ => insertIdx hs (String.mk p0) (String.mk p1)
          | _ => hs)
        (String.mk (removeNul (rustTrim q)))
      rw [hq] at h'
      exact ⟨hs', by simp only [parseLoop]; exact h'⟩
    · rw [List.cons_append]
      obtain ⟨hs', h'⟩ := ih
        (match (splitOnChar ':' i).map rustTrim with
          | p0 :: p1 :: _ => insertIdx hs (String.mk p0) (String.mk p1)
          | _ => hs) b
      exact ⟨hs', by simp only [parseLoop, if_neg hi]; exact h'⟩

/-- A successful parse determines the header/body loop's result on the lines
after the request line. -/
theorem Request.parseLines_success_loop (l : List (List Char)) (r : ParsedRequest)
    (h : Request.parseLines l = ParseResult.success r) :
    parseLoop [] "" l.tail = Sum.inr (r.headers, r.body) := by
  cases l with
  | nil => simp [Request.parseLines] at h
  | cons line0 rest =>
    simp only [Request.parseLines] at h
    split at h
    · split at h
      · exact absurd h (by simp)
      · split at h
        · exact absurd h (by simp)
        next hs b hloop =>
          rw [List.tail_cons, hloop]
          cases h
          rfl
    · exact absurd h (by simp)

/-- A successful `Request::parse` determines the loop result on the buffer's
lines after the request line. -/
theorem Request.parse_success_loop (buffer : String) (r : ParsedRequest)
    (h : Request.parse buffer = ParseResult.success r) :
    parseLoop [] "" (rustLines buffer.data).tail = Sum.inr (r.headers, r.body) :=
  Request.parseLines_success_loop _ r h

/-- `Request::parse` panics only inside parsing: it never raises the panic
reserved for the missing not-found document. -/
theorem Request.parse_ne_abort_unwrapNone (buffer : String) :
    Request.parse buffer ≠ ParseResult.abort AbortKind.unwrapNone := by
  unfold Request.parse
  cases rustLines buffer.data with
  | nil => simp [Request.parseLines]
  | cons line0 rest =>
    simp only [Request.parseLines]
    split
    · split
      · simp
      · split
        next k hk =>
          have := parseLoop_inl_eq rest [] "" k hk
          simp [this]
        · simp
    · simp

/-! ## Claim theorems -/

/-- C9: for all arguments the response formatter returns exactly
`"HTTP/1.1 {status} {reason}\r\n{headerBlock}\r\n\r\n{body}"`; in
particular `response 400 "Bad ass" "" ""` is
`"HTTP/1.1 400 Bad ass\r\n\r\n\r\n"`. -/
theorem C9_response_format :
    (∀ (status : ℤ) (desc headers body : String),
      response status desc headers body =
        "HTTP/1.1 " ++ toString status ++ " " ++ desc ++ "\r\n" ++ headers ++
          "\r\n\r\n" ++ body)
    ∧ response 400 "Bad ass" "" "" = "HTTP/1.1 400 Bad ass\r\n\r\n\r\n" := by
  constructor
  · intro status desc headers body
    simp [response, toString]
  · rfl

/-- C5: whenever `Request::parse` returns the malformed outcome, `get_page`
returns exactly the formatted 400 "Bad ass Request" response with empty
header block and body — and this holds for every filesystem, so no
filesystem lookup can influence the result. -/
theorem C5_malformed_yields_400 :
    ∀ (buffer : String) (fs : String → Option String),
      Request.parse buffer = ParseResult.malformed →
      Response.get_page fs buffer =
        GetPageResult.ok "HTTP/1.1 400 Bad ass Request\r\n\r\n\r\n" := by
  intro buffer fs h
  unfold Response.get_page
  rw [h]
  rfl

/-- Witness for C5 at the concrete malformed buffer `"GET /"`. -/
theorem C5_witness :
    Request.parse "GET /" = ParseResult.malformed ∧
    Response.get_page (fun _ => none) "GET /" =
      GetPageResult.ok "HTTP/1.1 400 Bad ass Request\r\n\r\n\r\n" :=
  ⟨by decide, C5_malformed_yields_400 "GET /" (fun _ => none) (by decide)⟩

/-- C6: `get_page` maps uri `/` to `frontend/index.html` and any other uri to
`frontend{uri}` with `.html` appended unless the uri already contains
`.html`; on a successful parse, `get_page` reads exactly the mapped path. -/
theorem C6_page_path_mapping :
    page_path "/" = "frontend/index.html"
    ∧ (∀ uri : String, uri ≠ "/" →
        page_path uri =
          "frontend" ++ uri ++
            (if containsStr ".html".data uri.data then "" else ".html"))
    ∧ (∀ (fs : String → Option String) (buffer : String) (r : ParsedRequest)
          (content : String),
        Request.parse buffer = ParseResult.success r →
        fs (page_path r.uri) = some content →
        Response.get_page fs buffer =
          GetPageResult.ok (response 200 "OK"
            ("Content-Length: " ++ toString content.utf8ByteSize) content)) := by
  refine ⟨rfl, fun uri h => ?_, fun fs buffer r content hp hf => ?_⟩
  · simp [page_path, h]
  · simp [Response.get_page, hp, hf]

/-- Witness for C6 at the uris `/about` (suffix appended) and `/a.html`
(no suffix), and a concrete successful lookup through `get_page`. -/
theorem C6_witness :
    ("/about" : String) ≠ "/" ∧
    page_path "/about" = "frontend" ++ "/about" ++
      (if containsStr ".html".data "/about".data then "" else ".html") ∧
    ("/a.html" : String) ≠ "/" ∧
    page_path "/a.html" = "frontend" ++ "/a.html" ++
      (if containsStr ".html".data "/a.html".data then "" else ".html") ∧
    Request.parse "GET /about HTTP/1.1" = ParseResult.success
      { method := "GET", uri := "/about", http_version := F64.finite (mkRat 11 10),
        headers := [], body := "" } ∧
    Response.get_page (fun p => if p = "frontend/about.html" then some "hi" else none)
        "GET /about HTTP/1.1" =
      GetPageResult.ok (response 200 "OK"
        ("Content-Length: " ++ toString ("hi" : String).utf8ByteSize) "hi") :=
  ⟨by decide, C6_page_path_mapping.2.1 "/about" (by decide),
   by decide, C6_page_path_mapping.2.1 "/a.html" (by decide),
   by decide,
   C6_page_path_mapping.2.2 _ "GET /about HTTP/1.1"
     { method := "GET", uri := "/about", http_version := F64.finite (mkRat 11 10),
       headers := [], body := "" } "hi" (by decide) (by decide)⟩

/-- C10 (confirmed at a concrete input): for the buffer
`"GET / HTTP/1.1\n\n"` the request line has exactly 3 tokens with a valid
version, the decoded text ends with a blank final line, and `Request::parse`
panics with an out-of-bounds index instead of returning an outcome. -/
theorem C10_trailing_blank_aborts :
    rustLines "GET / HTTP/1.1\n\n".data = ["GET / HTTP/1.1".data, []] ∧
    (splitOnChar ' ' "GET / HTTP/1.1".data).length = 3 ∧
    parseF64 (stripHTTPAll "HTTP/1.1".data) = some (F64.finite (mkRat 11 10)) ∧
    Request.parse "GET / HTTP/1.1\n\n" = ParseResult.abort AbortKind.indexOutOfBounds :=
  ⟨by decide, by decide, by decide, by decide⟩

/-- C3 counterexample: on the empty buffer, `Request::parse` panics with an
out-of-bounds index (`lines[0]` on an empty line list) — it does not return
the malformed outcome as the claim states. -/
theorem C3_counterexample :
    Request.parse "" = ParseResult.abort AbortKind.indexOutOfBounds ∧
    Request.parse "" ≠ ParseResult.malformed :=
  ⟨by decide, by decide⟩

/-- C3 amended: for any buffer with at least one line whose first line splits
into fewer than 3 space-separated tokens, `Request::parse` returns the
malformed outcome; the empty buffer (which has no lines) instead panics. -/
theorem C3_amended :
    (∀ (buffer : String) (line0 : List Char) (rest : List (List Char)),
        rustLines buffer.data = line0 :: rest →
        (splitOnChar ' ' line0).length < 3 →
        Request.parse buffer = ParseResult.malformed)
    ∧ Request.parse "" = ParseResult.abort AbortKind.indexOutOfBounds := by
  constructor
  · intro buffer line0 rest hl hlen
    unfold Request.parse
    rw [hl]
    simp only [Request.parseLines]
    cases hts : splitOnChar ' ' line0 with
    | nil => rfl
    | cons m t1 =>
      cases t1 with
      | nil => rfl
      | cons u t2 =>
        cases t2 with
        | nil => rfl
        | cons v t3 =>
          rw [hts] at hlen
          simp [List.length_cons] at hlen
          omega
  · decide

/-- Witness for C3 at the concrete buffer `"GET /"` (two tokens). -/
theorem C3_witness :
    rustLines "GET /".data = ["GET /".data] ∧
    (splitOnChar ' ' "GET /".data).length < 3 ∧
    Request.parse "GET /" = ParseResult.malformed :=
  ⟨by decide, by decide,
   C3_amended.1 "GET /" "GET /".data [] (by decide) (by decide)⟩

/-- C4 counterexample: the buffer `"GET / 1HTTP/.1"` has a 3-token request
line whose third token does not parse as a float after stripping the literal
prefix `HTTP/` (there is no such prefix), yet `Request::parse` succeeds —
because the source deletes every `HTTP/` occurrence, turning `1HTTP/.1` into
the parseable `1.1` — instead of aborting as the claim states. -/
theorem C4_counterexample :
    (splitOnChar ' ' "GET / 1HTTP/.1".data).length = 3 ∧
    parseF64 (stripLeadingHTTP "1HTTP/.1".data) = none ∧
    Request.parse "GET / 1HTTP/.1" = ParseResult.success
      { method := "GET", uri := "/", http_version := F64.finite (mkRat 11 10),
        headers := [], body := "" } :=
  ⟨by decide, by decide, by decide⟩

/-- C4 amended: for every buffer whose request line has at least 3 tokens and
whose third token, after deleting every occurrence of `HTTP/`, does not
parse as a float, `Request::parse` panics rather than returning the
malformed outcome. -/
theorem C4_bad_version_aborts :
    ∀ (buffer : String) (line0 : List Char) (rest : List (List Char))
      (m u v : List Char) (ts : List (List Char)),
      rustLines buffer.data = line0 :: rest →
      splitOnChar ' ' line0 = m :: u :: v :: ts →
      parseF64 (stripHTTPAll v) = none →
      Request.parse buffer = ParseResult.abort AbortKind.versionParse := by
  intro buffer line0 rest m u v ts hl hs hv
  unfold Request.parse
  rw [hl]
  simp only [Request.parseLines]
  rw [hs]
  simp [hv]

/-- Witness for C4 at the concrete buffer `"GET / HTTP/x"`. -/
theorem C4_witness :
    rustLines "GET / HTTP/x".data = ["GET / HTTP/x".data] ∧
    splitOnChar ' ' "GET / HTTP/x".data =
      ["GET".data, "/".data, "HTTP/x".data] ∧
    parseF64 (stripHTTPAll "HTTP/x".data) = none ∧
    Request.parse "GET / HTTP/x" = ParseResult.abort AbortKind.versionParse :=
  ⟨by decide, by decide, by decide,
   C4_bad_version_aborts "GET / HTTP/x" "GET / HTTP/x".data []
     "GET".data "/".data "HTTP/x".data [] (by decide) (by decide) (by decide)⟩

/-- C8 counterexample: with a filesystem lacking `frontend/404.html`, a
well-formed request whose page is missing makes `get_page` panic inside the
per-request path — the failure is not surfaced as a startup-level error as
the claim states (the binary has no startup validation of the not-found
document). -/
theorem C8_counterexample :
    Response.get_page (fun _ => none) "GET / HTTP/1.1" =
      GetPageResult.abort AbortKind.unwrapNone := by
  decide

/-- C8 amended: a read failure of the not-found document surfaces as a
per-request panic inside `get_page`; under the precondition that the
not-found document is readable, no request can make `get_page` panic at that
point. -/
theorem C8_fallback_readable_no_abort :
    ∀ (fs : String → Option String) (c : String) (buffer : String),
      fs "frontend/404.html" = some c →
      Response.get_page fs buffer ≠ GetPageResult.abort AbortKind.unwrapNone := by
  intro fs c buffer h404 hcontra
  unfold Response.get_page at hcontra
  split at hcontra
  · exact absurd hcontra (by simp)
  next k heq =>
    cases hcontra
    exact Request.parse_ne_abort_unwrapNone buffer heq
  next req heq =>
    split at hcontra
    · exact absurd hcontra (by simp)
    · rw [h404] at hcontra
      exact absurd hcontra (by simp)

/-- Witness for C8 with a filesystem containing only the not-found page. -/
theorem C8_witness :
    ((fun p => if p = "frontend/404.html" then some "nf" else none) "frontend/404.html"
      = some ("nf" : String)) ∧
    Response.get_page (fun p => if p = "frontend/404.html" then some "nf" else none)
      "GET / HTTP/1.1" ≠ GetPageResult.abort AbortKind.unwrapNone :=
  ⟨by decide,
   C8_fallback_readable_no_abort _ "nf" "GET / HTTP/1.1" (by decide)⟩

/-- C2 counterexample: when the requested page is missing and the not-found
document reads as `"nf"`, `get_page` returns a 200 OK response whose header
block does contain a `Content-Length` header (of the fallback body), contrary
to the claim that no `Content-Length` header is present. -/
theorem C2_counterexample :
    Response.get_page (fun p => if p = "frontend/404.html" then some "nf" else none)
        "GET /x HTTP/1.1" =
      GetPageResult.ok "HTTP/1.1 200 OK\r\nContent-Length: 2\r\n\r\nnf" ∧
    containsStr "Content-Length".data
        "HTTP/1.1 200 OK\r\nContent-Length: 2\r\n\r\nnf".data = true :=
  ⟨by decide, by decide⟩

/-- C2 amended: when the requested page cannot be read and the not-found
document can, `get_page` returns status 200, reason `OK`, the not-found
document's contents as body, and a `Content-Length` header carrying the
fallback body's byte length. -/
theorem C2_fallback_response :
    ∀ (fs : String → Option String) (buffer : String) (r : ParsedRequest) (c : String),
      Request.parse buffer = ParseResult.success r →
      fs (page_path r.uri) = none →
      fs "frontend/404.html" = some c →
      Response.get_page fs buffer =
        GetPageResult.ok (response 200 "OK"
          ("Content-Length: " ++ toString c.utf8ByteSize) c) := by
  intro fs buffer r c hp hmiss h404
  simp [Response.get_page, hp, hmiss, h404]

/-- Witness for C2 with a concrete filesystem and the buffer `"GET /x HTTP/1.1"`. -/
theorem C2_witness :
    Request.parse "GET /x HTTP/1.1" = ParseResult.success
      { method := "GET", uri := "/x", http_version := F64.finite (mkRat 11 10),
        headers := [], body := "" } ∧
    ((fun p => if p = "frontend/404.html" then some "nf" else none)
      (page_path "/x") = (none : Option String)) ∧
    Response.get_page (fun p => if p = "frontend/404.html" then some "nf" else none)
        "GET /x HTTP/1.1" =
      GetPageResult.ok (response 200 "OK"
        ("Content-Length: " ++ toString ("nf" : String).utf8ByteSize) "nf") :=
  ⟨by decide, by decide,
   C2_fallback_response _ "GET /x HTTP/1.1"
     { method := "GET", uri := "/x", http_version := F64.finite (mkRat 11 10),
       headers := [], body := "" } "nf" (by decide) (by decide) (by decide)⟩

/-- `str::lines` of `a ++ "\n" ++ b` where neither part contains a line feed
and `b` is non-empty: two lines, `a` (with a trailing CR stripped) and `b`. -/
theorem rustLines_single_newline (a b : List Char) (ha : '\n' ∉ a) (hb : b ≠ [])
    (hbn : '\n' ∉ b) :
    rustLines (a ++ '\n' :: b) = [rstripCr a, b] := by
  unfold rustLines
  rw [splitOnChar_append_cons '\n' a b ha, splitOnChar_eq_single '\n' b hbn]
  obtain ⟨c, cs, rfl⟩ : ∃ c cs, b = c :: cs := by
    cases b with
    | nil => exact absurd rfl hb
    | cons c cs => exact ⟨c, cs, rfl⟩
  simp [List.dropLast, List.getLast?]

set_option maxRecDepth 100000 in
/-- C1 counterexample: parsing the sample request literal succeeds, but the
first header entry is `Host -> "127.0.0.1"`, not `Host -> "127.0.0.1:3000"`:
the parser splits each line at every `':'` and keeps only the first two
trimmed pieces, so the value does not keep colons after the first. -/
theorem C1_counterexample :
    Request.parse SAMPLE_REQ_STR = ParseResult.success SAMPLE_PARSED ∧
    SAMPLE_PARSED.headers.head? = some ("Host", "127.0.0.1") ∧
    (("Host", "127.0.0.1") : String × String) ≠ ("Host", "127.0.0.1:3000") :=
  ⟨by decide, by decide, by decide⟩

set_option maxRecDepth 100000 in
/-- C1 amended: parsing the sample literal yields method `GET`, uri `/`,
http version `1.1` and `Host -> "127.0.0.1"` as first entry; in general a
header line is split at every `':'`, each piece is trimmed, and whenever at
least two pieces result (empty or not) the first two are inserted as key and
value — pieces after the second are discarded. -/
theorem C1_sample_and_header_split :
    Request.parse SAMPLE_REQ_STR = ParseResult.success SAMPLE_PARSED
    ∧ (∀ (line p0 p1 : List Char) (ps : List (List Char)),
        '\n' ∉ line →
        (splitOnChar ':' line).map rustTrim = p0 :: p1 :: ps →
        Request.parse (String.mk ("GET / HTTP/1.1\n".data ++ line)) =
          ParseResult.success
            { method := "GET", uri := "/", http_version := F64.finite (mkRat 11 10),
              headers := [(String.mk p0, String.mk p1)], body := "" }) := by
  constructor
  · decide
  · intro line p0 p1 ps hnl hsplit
    have hne : line ≠ [] := by
      intro h
      subst h
      simp [splitOnChar, rustTrim] at hsplit
    have hdata : "GET / HTTP/1.1\n".data ++ line
        = "GET / HTTP/1.1".data ++ '\n' :: line := by
      have h0 : "GET / HTTP/1.1\n".data = "GET / HTTP/1.1".data ++ ['\n'] := by decide
      rw [h0, List.append_assoc]
      rfl
    have hlines : rustLines ("GET / HTTP/1.1".data ++ '\n' :: line)
        = ["GET / HTTP/1.1".data, line] := by
      rw [rustLines_single_newline _ _ (by decide) hne hnl]
      rw [show rstripCr "GET / HTTP/1.1".data = "GET / HTTP/1.1".data from by decide]
    show Request.parseLines (rustLines ("GET / HTTP/1.1\n".data ++ line)) = _
    rw [hdata, hlines]
    simp only [Request.parseLines]
    simp only [show splitOnChar ' ' "GET / HTTP/1.1".data
      = ["GET".data, "/".data, "HTTP/1.1".data] from by decide]
    simp only [show parseF64 (stripHTTPAll "HTTP/1.1".data)
      = some (F64.finite (mkRat 11 10)) from by decide]
    simp only [parseLoop, if_neg hne, hsplit]
    simp [parseLoop, insertIdx]

/-- Witness for C1 at the header line `"Host: 127.0.0.1:3000"`. -/
theorem C1_witness :
    ('\n' ∉ "Host: 127.0.0.1:3000".data) ∧
    (splitOnChar ':' "Host: 127.0.0.1:3000".data).map rustTrim =
      "Host".data :: "127.0.0.1".data :: ["3000".data] ∧
    Request.parse (String.mk ("GET / HTTP/1.1\n".data ++ "Host: 127.0.0.1:3000".data)) =
      ParseResult.success
        { method := "GET", uri := "/", http_version := F64.finite (mkRat 11 10),
          headers := [(String.mk "Host".data, String.mk "127.0.0.1".data)], body := "" } :=
  ⟨by decide, by decide,
   C1_sample_and_header_split.2 "Host: 127.0.0.1:3000".data
     "Host".data "127.0.0.1".data ["3000".data] (by decide) (by decide)⟩

/-- C7 counterexample: in `"GET / HTTP/1.1\n\na\n\nb"` the line immediately
following the first blank line is `"a"`, but `Request::parse` returns body
`"b"` — every blank line reassigns the body, so the line after the last
blank line wins, contrary to the claim. -/
theorem C7_counterexample :
    Request.parse "GET / HTTP/1.1\n\na\n\nb" = ParseResult.success
      { method := "GET", uri := "/", http_version := F64.finite (mkRat 11 10),
        headers := [], body := "b" } ∧
    String.mk (removeNul (rustTrim "a".data)) = "a" ∧
    ("b" : String) ≠ "a" :=
  ⟨by decide, by decide, by decide⟩

/-- C7 amended: in a successfully parsed request the body equals the line
immediately following the LAST blank line among the lines after the request
line, trimmed and with NULs removed — no later lines are appended — and a
request with no blank line has an empty body. -/
theorem C7_body_after_last_blank :
    (∀ (buffer : String) (r : ParsedRequest) (pre post : List (List Char)),
        Request.parse buffer = ParseResult.success r →
        (rustLines buffer.data).tail = pre ++ [] :: post →
        [] ∉ post →
        ∃ nxt rest2, post = nxt :: rest2 ∧
          r.body = String.mk (removeNul (rustTrim nxt)))
    ∧ (∀ (buffer : String) (r : ParsedRequest),
        Request.parse buffer = ParseResult.success r →
        [] ∉ (rustLines buffer.data).tail →
        r.body = "") := by
  constructor
  · intro buffer r pre post hp htail hpost
    have hloop := Request.parse_success_loop buffer r hp
    rw [htail] at hloop
    cases post with
    | nil =>
      rw [parseLoop_trailing_blank pre [] ""] at hloop
      exact absurd hloop (by simp)
    | cons nxt rest2 =>
      obtain ⟨hs', h'⟩ := parseLoop_blank_last nxt rest2 hpost pre [] ""
      rw [h'] at hloop
      simp only [Sum.inr.injEq, Prod.mk.injEq] at hloop
      exact ⟨nxt, rest2, rfl, hloop.2.symm⟩
  · intro buffer r hp hnb
    have hloop := Request.parse_success_loop buffer r hp
    obtain ⟨hs', h'⟩ := parseLoop_no_blank _ hnb [] ""
    rw [h'] at hloop
    simp only [Sum.inr.injEq, Prod.mk.injEq] at hloop
    exact hloop.2.symm

/-- Witness for C7 at the buffer `"GET / HTTP/1.1\n\nhello"`. -/
theorem C7_witness :
    (∃ nxt rest2, (["hello".data] : List (List Char)) = nxt :: rest2 ∧
      ParsedRequest.body
        { method := "GET", uri := "/", http_version := F64.finite (mkRat 11 10),
          headers := [], body := "hello" } =
        String.mk (removeNul (rustTrim nxt))) ∧
    ParsedRequest.body
      { method := "GET", uri := "/x", http_version := F64.finite (mkRat 11 10),
        headers := [], body := "" } = "" :=
  ⟨C7_body_after_last_blank.1 "GET / HTTP/1.1\n\nhello"
     { method := "GET", uri := "/", http_version := F64.finite (mkRat 11 10),
       headers := [], body := "hello" } [] ["hello".data]
     (by decide) (by decide) (by decide),
   C7_body_after_last_blank.2 "GET /x HTTP/1.1"
     { method := "GET", uri := "/x", http_version := F64.finite (mkRat 11 10),
       headers := [], body := "" }
     (by decide) (by decide)⟩
